import Mathlib

/- Verification of the JSON extraction and aggregation pipeline of
   lib/container_podman_stats.c: a shallow embedding of json_parser_stats,
   json_parser_list and podman_stats over jsmn-style token streams, together
   with theorems about the extraction state machine, the dedup counter and
   the aggregated report. -/

namespace PodmanStats

/-- Modelled from the spec: the jsmn tokenizer (jsmn.h, vendored, not under
src/) classifies each span of the input as object-start, array-start, string
or primitive; JSMN_UNDEFINED is the uninitialized kind.  No object-end or
array-end tokens are emitted. -/
inductive Jsmn where
  | obj
  | arr
  | str
  | prim
  | undef
  deriving DecidableEq, Repr

/-- Modelled from the spec: a token with its byte span already resolved to
the text it covers.  json_token_streq and json_token_tostr (json_helpers.c,
not under src/) compare and extract that text, so the embedding carries the
text directly. -/
structure Token where
  kind : Jsmn
  text : String
  deriving DecidableEq, Repr

/-- Error outcomes of the extraction and aggregation calls: in the C source
every one of these is a fatal plugin_error abort. -/
inductive Err where
  | rootKeyNotFound (func rootKey : String)
  | rootNotObject (func : String)
  | invalidNumeric (key : String)
  | invalidIdentifier
  | truncated
  deriving DecidableEq, Repr

/-- Accumulator for a base-10 digit scan over a character list. -/
def parseDecCore : List Char → Nat → Option Nat
  | [], acc => some acc
  | c :: cs, acc =>
    if c.isDigit then parseDecCore cs (acc * 10 + (c.toNat - 48)) else none

/-- Base-10 unsigned integer parse of a whole character list; none on an
empty list or any non-digit character. -/
def parseDec : List Char → Option Nat
  | [] => none
  | c :: cs => parseDecCore (c :: cs) 0

/-- Modelled from the spec: strtol_or_err (xstrtol.c, not under src/);
numeric slots are parsed as base-10 unsigned integers and a non-numeric
value is a fatal InvalidNumeric error. -/
def strtol_or_err (s : String) (key : String) : Except Err Nat :=
  match parseDec s.data with
  | some n => .ok n
  | none => .error (.invalidNumeric key)

/-- Modelled from the spec: container_stats_t (container_podman.h, not under
src/) restricted to the fields the source reads and writes.  The name field
is an Option because json_parser_stats leaves it unassigned when the name
key is absent. -/
structure ContainerStats where
  name : Option String
  mem_limit : Nat
  mem_usage : Nat
  deriving DecidableEq, Repr

/-- The three target keys of json_parser_stats, in the order of its keys
array: mem_limit, mem_usage, name. -/
inductive StatsKey where
  | mem_limit
  | mem_usage
  | name
  deriving DecidableEq, Repr

/-- The vals slot array of json_parser_stats: one optional captured string
per target key, all NULL initially. -/
structure StatsVals where
  mem_limit : Option String
  mem_usage : Option String
  name : Option String
  deriving DecidableEq, Repr

def emptyStatsVals : StatsVals := ⟨none, none, none⟩

/-- The inner for-loop of json_parser_stats over its keys array: first key
whose text equals the token text, if any (break at first match). -/
def matchKeyStats (s : String) : Option StatsKey :=
  if s = "mem_limit" then some .mem_limit
  else if s = "mem_usage" then some .mem_usage
  else if s = "name" then some .name
  else none

/-- Store a captured value in the slot of the given stats target key. -/
def setValStats (v : StatsVals) (k : StatsKey) (s : String) : StatsVals :=
  match k with
  | .mem_limit => { v with mem_limit := some s }
  | .mem_usage => { v with mem_usage := some s }
  | .name => { v with name := some s }

/-- Read the slot of the given stats target key. -/
def getValStats (v : StatsVals) (k : StatsKey) : Option String :=
  match k with
  | .mem_limit => v.mem_limit
  | .mem_usage => v.mem_usage
  | .name => v.name

/-- Loop state of json_parser_stats: the level counter, the vals slots and
the stats record being filled in. -/
structure StatsState where
  level : Nat
  vals : StatsVals
  stats : ContainerStats
  deriving DecidableEq, Repr

def initStatsState : StatsState :=
  { level := 0, vals := emptyStatsVals,
    stats := { name := none, mem_limit := 0, mem_usage := 0 } }

/-- The post-switch block of json_parser_stats, run at the end of every
loop iteration: if a vals slot is non-NULL, re-derive the corresponding
stats field from it (strtol_or_err for the two numeric fields, a string
copy for the name). -/
def updStats (st : StatsState) : Except Err StatsState :=
  match (match st.vals.mem_limit with
         | some s => strtol_or_err s "mem_limit"
         | none => .ok st.stats.mem_limit) with
  | .error e => .error e
  | .ok ml =>
    match (match st.vals.mem_usage with
           | some s => strtol_or_err s "mem_usage"
           | none => .ok st.stats.mem_usage) with
    | .error e => .error e
    | .ok mu =>
      let nm := match st.vals.name with
                | some s => some s
                | none => st.stats.name
      .ok { st with stats := { name := nm, mem_limit := ml, mem_usage := mu } }

/-- The token loop of json_parser_stats.  An object token increments level
while level is below 2; a string token at level 1 must equal the root key
"container"; a string token equal to a target key captures the text of the
immediately following token into that key's slot and the following token is
skipped (the ++i in the source); any other token at level 0 is the fatal
root-element error.  After each iteration the post-switch update runs.  A
target key as the very last token would make the source read past the token
array; the embedding makes that case the explicit error Err.truncated. -/
def statsRun : List Token → StatsState → Except Err StatsState
  | [], st => .ok st
  | t :: rest, st =>
    match t.kind with
    | .obj =>
      match updStats { st with
                       level := if st.level < 2 then st.level + 1 else st.level } with
      | .error e => .error e
      | .ok st2 => statsRun rest st2
    | .str =>
      if st.level = 1 ∧ t.text ≠ "container" then
        .error (.rootKeyNotFound "json_parser_stats" "container")
      else
        match matchKeyStats t.text with
        | some k =>
          match rest with
          | [] => .error .truncated
          | v :: rest2 =>
            match updStats { st with vals := setValStats st.vals k v.text } with
            | .error e => .error e
            | .ok st2 => statsRun rest2 st2
        | none =>
          match updStats st with
          | .error e => .error e
          | .ok st2 => statsRun rest st2
    | _ =>
      if st.level = 0 then .error (.rootNotObject "json_parser_stats")
      else
        match updStats st with
        | .error e => .error e
        | .ok st2 => statsRun rest st2

/-- json_parser_stats on an already tokenised document: run the token loop
from the initial state (level 0, all slots NULL, numeric fields initialised
to 0) and return the final stats record. -/
def json_parser_stats (ts : List Token) : Except Err ContainerStats :=
  match statsRun ts initStatsState with
  | .error e => .error e
  | .ok st => .ok st.stats

/-- Shorthand for a string token. -/
def strTok (s : String) : Token := ⟨.str, s⟩

/-- Shorthand for a primitive token. -/
def primTok (s : String) : Token := ⟨.prim, s⟩

/-- Shorthand for an object-start token. -/
def objTok : Token := ⟨.obj, ""⟩

/-- Shorthand for an array-start token. -/
def arrTok : Token := ⟨.arr, ""⟩

/-- The jsmn token stream of the single-item stats document given in the
source comment above json_parser_stats (lines 47-63). -/
def statsDocToks : List Token :=
  [objTok, strTok "container", objTok,
   strTok "block_input", primTok "16601088",
   strTok "block_output", primTok "16384",
   strTok "cpu", primTok "1.0191267811342149e-07",
   strTok "cpu_nano", primTok "1616621000",
   strTok "id",
   strTok "e15712d1db8f92b3a00be9649345856da53ab22abcc8b22e286c5cd8fbf08c36",
   strTok "mem_limit", primTok "8232525824",
   strTok "mem_perc", primTok "0.10095059739468847",
   strTok "mem_usage", primTok "8310784",
   strTok "name", strTok "srv-redis-1",
   strTok "net_input", primTok "1048",
   strTok "net_output", primTok "7074",
   strTok "pids", primTok "4",
   strTok "system_nano", primTok "1586280558931850500"]

/-- The three target keys of json_parser_list, in the order of its keys
array: containerrunning, id, image. -/
inductive ListKey where
  | containerrunning
  | id
  | image
  deriving DecidableEq, Repr

/-- The vals slot array of json_parser_list: one optional captured string
per target key, all NULL initially and reset to NULL after every flush. -/
structure ListVals where
  containerrunning : Option String
  id : Option String
  image : Option String
  deriving DecidableEq, Repr

def emptyListVals : ListVals := ⟨none, none, none⟩

/-- The inner for-loop of json_parser_list over its keys array: first key
whose text equals the token text, if any (break at first match). -/
def matchKeyList (s : String) : Option ListKey :=
  if s = "containerrunning" then some .containerrunning
  else if s = "id" then some .id
  else if s = "image" then some .image
  else none

/-- Store a captured value in the slot of the given list target key. -/
def setValList (v : ListVals) (k : ListKey) (s : String) : ListVals :=
  match k with
  | .containerrunning => { v with containerrunning := some s }
  | .id => { v with id := some s }
  | .image => { v with image := some s }

/-- Read the slot of the given list target key. -/
def getValList (v : ListVals) (k : ListKey) : Option String :=
  match k with
  | .containerrunning => v.containerrunning
  | .id => v.id
  | .image => v.image

/-- Modelled from the spec: the dedup counter (lib/collection.c, not under
src/) maps a key to a count, keeps keys unique and preserves first-insertion
order; re-insertion of an existing key is a no-op. -/
structure Counter where
  entries : List (String × Nat)
  deriving DecidableEq, Repr

/-- Modelled from the spec: counter_create returns an empty counter. -/
def counter_create : Counter := ⟨[]⟩

/-- Modelled from the spec: counter_put inserts the key with the given count
if it is absent and is a no-op (not an increment) when the key is already
present; a fresh key is appended, preserving first-insertion order. -/
def counter_put (c : Counter) (k : String) (v : Nat) : Counter :=
  if c.entries.any (fun e => e.1 = k) then c else ⟨c.entries ++ [(k, v)]⟩

/-- Modelled from the spec: counter_get_unique_elements returns the number
of distinct keys held by the counter. -/
def counter_get_unique_elements (c : Counter) : Nat := c.entries.length

/-- The keys array of the counter's hashtable, in first-insertion order. -/
def Counter.keys (c : Counter) : List String := c.entries.map (fun e => e.1)

/-- Modelled from the spec: PODMAN_SHORTID_LEN gives short identifiers of 8
characters (container_podman.h, not under src/). -/
def shortIdLen : Nat := 8

/-- Modelled from the spec: podman_shortid (container_podman.h, not under
src/) returns the first 8 characters of a full identifier and fails with
InvalidIdentifier on a shorter input. -/
def podman_shortid (s : String) : Option String :=
  if shortIdLen ≤ s.data.length then some ⟨s.data.take shortIdLen⟩ else none

/-- Modelled from the spec: podman_array_is_full (lib/collection.c, not
under src/) checks that every target slot is non-empty. -/
def podman_array_is_full (v : ListVals) : Bool :=
  v.containerrunning.isSome && v.id.isSome && v.image.isSome

/-- Loop state of json_parser_list: the level counter, the vals slots and
the dedup counter under construction. -/
structure ListState where
  level : Nat
  vals : ListVals
  ht : Counter
  deriving DecidableEq, Repr

def initListState : ListState :=
  { level := 0, vals := emptyListVals, ht := counter_create }

/-- Insertion branch of the full-slot flush: shorten the captured id and
put it into the counter with count 1, then reset the slots. -/
def flushInsert (v : ListVals) (ht : Counter) :
    Except Err (Counter × ListVals) :=
  match podman_shortid (v.id.getD "") with
  | some sid => .ok (counter_put ht sid 1, emptyListVals)
  | none => .error .invalidIdentifier

/-- The full-slot flush of json_parser_list (source lines 284-305), run
after every loop iteration: when all three slots are captured, insert the
shortened id into the counter with count 1 provided containerrunning is the
string true and the optional image filter, when present, equals the image
exactly; then reset every slot to NULL whether or not the item was
inserted.  When the slots are not all full, nothing changes. -/
def flushFull (image_name : Option String) (v : ListVals) (ht : Counter) :
    Except Err (Counter × ListVals) :=
  if podman_array_is_full v then
    if v.containerrunning.getD "" = "true" then
      match image_name with
      | some f =>
        if v.image.getD "" ≠ f then .ok (ht, emptyListVals)
        else flushInsert v ht
      | none => flushInsert v ht
    else .ok (ht, emptyListVals)
  else .ok (ht, v)

/-- Apply the full-slot flush to a loop state. -/
def applyFlush (image_name : Option String) (st : ListState) :
    Except Err ListState :=
  match flushFull image_name st.vals st.ht with
  | .error e => .error e
  | .ok (ht2, vals2) => .ok { st with ht := ht2, vals := vals2 }

/-- The token loop of json_parser_list.  An object token increments level
unconditionally (the source comment notes it is never decremented); a
string token at level 1 must equal the root key "containers"; a string
token equal to a target key captures the text of the immediately following
token into that key's slot and the following token is skipped (the ++i in
the source); any other token at level 0 is the fatal root-element error.
After each iteration the full-slot flush runs.  A target key as the very
last token would make the source read past the token array; the embedding
makes that case the explicit error Err.truncated. -/
def listRun (image_name : Option String) :
    List Token → ListState → Except Err ListState
  | [], st => .ok st
  | t :: rest, st =>
    match t.kind with
    | .obj =>
      match applyFlush image_name { st with level := st.level + 1 } with
      | .error e => .error e
      | .ok st2 => listRun image_name rest st2
    | .str =>
      if st.level = 1 ∧ t.text ≠ "containers" then
        .error (.rootKeyNotFound "json_parser_list" "containers")
      else
        match matchKeyList t.text with
        | some k =>
          match rest with
          | [] => .error .truncated
          | v :: rest2 =>
            match applyFlush image_name
                { st with vals := setValList st.vals k v.text } with
            | .error e => .error e
            | .ok st2 => listRun image_name rest2 st2
        | none =>
          match applyFlush image_name st with
          | .error e => .error e
          | .ok st2 => listRun image_name rest st2
    | _ =>
      if st.level = 0 then .error (.rootNotObject "json_parser_list")
      else
        match applyFlush image_name st with
        | .error e => .error e
        | .ok st2 => listRun image_name rest st2

/-- json_parser_list on an already tokenised document: run the token loop
from the initial state (level 0, all slots NULL, freshly created counter)
and return the populated dedup counter. -/
def json_parser_list (ts : List Token) (image_name : Option String) :
    Except Err Counter :=
  match listRun image_name ts initListState with
  | .error e => .error e
  | .ok st => .ok st.ht

/-- Modelled from the spec: the unit-shift selector of the total-memory
rendition (units.h, not under src/). -/
inductive UnitShift where
  | b
  | k
  | m
  | g
  deriving DecidableEq, Repr

/-- The character of a single decimal digit. -/
def digitChar (n : Nat) : Char :=
  if n = 0 then '0' else if n = 1 then '1' else if n = 2 then '2'
  else if n = 3 then '3' else if n = 4 then '4' else if n = 5 then '5'
  else if n = 6 then '6' else if n = 7 then '7' else if n = 8 then '8'
  else if n = 9 then '9' else '*'

/-- Digit list of the base-10 rendition of a natural number, most
significant digit first. -/
def natToDecAux (n : Nat) : List Char :=
  if n < 10 then [digitChar n]
  else natToDecAux (n / 10) ++ [digitChar (n % 10)]
  termination_by n
  decreasing_by exact Nat.div_lt_self (by omega) (by omega)

/-- Base-10 rendition of a natural number, as printf %lu and %u render the
unsigned integers of the source. -/
def natToDec (n : Nat) : String := ⟨natToDecAux n⟩

/-- The per-container line that podman_stats prints into the perfdata
memstream: name, usage in kB, the fixed field separators and the limit in
kB, with a trailing space; both kB figures use truncating division by
1000. -/
def perfLine (stats : ContainerStats) : String :=
  stats.name.getD "" ++ "=" ++ natToDec (stats.mem_usage / 1000) ++
    "kB;;;0;" ++ natToDec (stats.mem_limit / 1000) ++ " "

/-- The modulus of C unsigned long long arithmetic, 2 to the 64: the
tot_memory accumulator of podman_stats has that type and wraps at it. -/
def u64Mod : Nat := 18446744073709551616

/-- The modulus of C unsigned int arithmetic, 2 to the 32: the containers
count of podman_stats has that type, so the unique-element count is
truncated at it both as the loop bound and in the %u rendition. -/
def u32Mod : Nat := 4294967296

/-- The per-container loop of podman_stats: for each short id, in the
counter's key order, fetch and parse that container's stats document,
print its perfdata line and add its mem_usage to the running total, an
unsigned long long that wraps modulo 2 to the 64.  The first failing parse
aborts the loop.  The second component records the short ids whose stats
documents were fetched, in order. -/
def statsLoop (fetchStats : String → List Token) :
    List String → Except Err (Nat × String) × List String
  | [] => (.ok (0, ""), [])
  | k :: rest =>
    match json_parser_stats (fetchStats k) with
    | .error e => (.error e, [k])
    | .ok stats =>
      match statsLoop fetchStats rest with
      | (.error e, ids) => (.error e, k :: ids)
      | (.ok (tot, pd), ids) =>
        (.ok ((stats.mem_usage + tot) % u64Mod, perfLine stats ++ pd),
         k :: ids)

/-- Specification-side per-item mem_usage: the mem_usage of the record the
single-item extractor returns for the item's stats document, 0 when the
extraction fails (the failing case never occurs on a successful run). -/
def usageOf (fetchStats : String → List Token) (k : String) : Nat :=
  match json_parser_stats (fetchStats k) with
  | .ok s => s.mem_usage
  | .error _ => 0

/-- Specification-side per-item report line, spelling the exact claimed
text: name, equals sign, usage divided by 1000 truncating, the literal
kB;;;0; separator, limit divided by 1000 truncating, trailing space; empty
when the extraction fails (never on a successful run). -/
def perfLineOf (fetchStats : String → List Token) (k : String) : String :=
  match json_parser_stats (fetchStats k) with
  | .ok s => s.name.getD "" ++ "=" ++ natToDec (s.mem_usage / 1000) ++
      "kB;;;0;" ++ natToDec (s.mem_limit / 1000) ++ " "
  | .error _ => ""

/-- The aggregate result of podman_stats: the total memory, the perfdata
stream contents and the status string. -/
structure PodmanResult where
  tot_memory : Nat
  perfdata : String
  status : String
  deriving DecidableEq, Repr

/-- podman_stats over tokenised fetch results: run list extraction to build
the dedup counter, store its unique-element count in the unsigned int
containers (truncating modulo 2 to the 32), loop over the first containers
keys fetching and folding each per-container stats document, and finally
render the status string from the unit-shifted wrapped total and the %u
rendition of containers.  The fmtMB and fmtGB parameters abstract the two
floating-point %g renditions of the source (total/1000000.0 and
total/1000000000.0); the byte and kB cases are exact integer renditions.
The second component of the pair records the short ids whose stats
documents were fetched, in order; a failed list extraction fetches none. -/
def podman_stats (listToks : List Token) (fetchStats : String → List Token)
    (shift : UnitShift) (image : Option String)
    (fmtMB fmtGB : Nat → String) :
    Except Err PodmanResult × List String :=
  match json_parser_list listToks image with
  | .error e => (.error e, [])
  | .ok ht =>
    let containers := counter_get_unique_elements ht % u32Mod
    match statsLoop fetchStats (ht.keys.take containers) with
    | (.error e, ids) => (.error e, ids)
    | (.ok (tot, pd), ids) =>
      let tot_memory_str :=
        match shift with
        | .b => natToDec tot ++ "B"
        | .k => natToDec (tot / 1000) ++ "kB"
        | .m => fmtMB tot ++ "MB"
        | .g => fmtGB tot ++ "GB"
      (.ok { tot_memory := tot, perfdata := pd,
             status := tot_memory_str ++ " of memory used by " ++
               natToDec containers ++ " running containers" }, ids)

/-- The jsmn token stream of a one-container list document shaped like the
source comment above json_parser_list, restricted to the keys the extractor
reads. -/
def listDocToks : List Token :=
  [objTok, strTok "containers", arrTok, objTok,
   strTok "containerrunning", primTok "true",
   strTok "id",
   strTok "3b395e067a3071ba77b2b44999235589a0957c72e99d1186ff1e53a0069da727",
   strTok "image", strTok "docker.io/library/redis:latest"]

/-- The key-array text of a stats target key. -/
def keyName : StatsKey → String
  | .mem_limit => "mem_limit"
  | .mem_usage => "mem_usage"
  | .name => "name"

/-- Pointwise agreement of two stats records at the field owned by the
given target key. -/
def statsFieldEq (a b : ContainerStats) : StatsKey → Prop
  | .mem_limit => a.mem_limit = b.mem_limit
  | .mem_usage => a.mem_usage = b.mem_usage
  | .name => a.name = b.name

/-- Specification-side trace of json_parser_stats capture events: the value
text immediately following the last occurrence of the given target key that
the scan treats as a key (value tokens consumed by a capture are skipped,
exactly as the scan skips them), or none when the key never matches. -/
def lastCapStats (k : StatsKey) : List Token → Option String
  | [] => none
  | t :: rest =>
    match t.kind with
    | .str =>
      match matchKeyStats t.text with
      | some m =>
        match rest with
        | [] => none
        | v :: rest2 =>
          match lastCapStats k rest2 with
          | some w => some w
          | none => if m = k then some v.text else none
      | none => lastCapStats k rest
    | _ => lastCapStats k rest

/-- Token stream with two sibling top-level objects in stats shape: the
first has the correct root key, the second has the bogus root key
notcontainer that a depth-correct parser must reject at depth 1. -/
def siblingStatsToks : List Token :=
  [objTok, strTok "container", objTok, strTok "name", strTok "A",
   objTok, strTok "notcontainer", strTok "v"]

/-- Token stream with two sibling top-level objects in list shape: the
first is the one-container list document, the second has the bogus root
key notcontainers that a depth-correct parser must reject at depth 1. -/
def siblingListToks : List Token :=
  listDocToks ++ [objTok, strTok "notcontainers", strTok "x"]

/-- Stats document whose target key name occurs twice in the single
item-scan window, first with value A and then with value B. -/
def dupNameToks : List Token :=
  [objTok, strTok "container", objTok,
   strTok "name", strTok "A", strTok "name", strTok "B"]

/-- Stats document that never mentions mem_usage or mem_limit. -/
def noNumericToks : List Token :=
  [objTok, strTok "container", objTok, strTok "name", strTok "X"]

theorem strtol_or_err_error {s key : String} {e : Err}
    (h : strtol_or_err s key = .error e) : e = .invalidNumeric key := by
  unfold strtol_or_err at h
  split at h <;> simp_all

theorem updStats_ok_vals {st st2 : StatsState} (h : updStats st = .ok st2) :
    st2.vals = st.vals ∧ st2.level = st.level := by
  unfold updStats at h
  split at h
  · exact absurd h (by simp)
  · split at h
    · exact absurd h (by simp)
    · simp only [Except.ok.injEq] at h
      subst h
      simp

theorem updStats_ok_field {st st2 : StatsState} (k : StatsKey)
    (hnone : getValStats st.vals k = none) (h : updStats st = .ok st2) :
    statsFieldEq st2.stats st.stats k := by
  unfold updStats at h
  split at h
  · exact absurd h (by simp)
  · split at h
    · exact absurd h (by simp)
    · simp only [Except.ok.injEq] at h
      subst h
      cases k <;> simp_all [getValStats, statsFieldEq]

theorem updStats_err_key {st : StatsState} {e : Err} (k : StatsKey)
    (hnone : getValStats st.vals k = none) (h : updStats st = .error e) :
    e ≠ .invalidNumeric (keyName k) := by
  unfold updStats at h
  split at h
  · rename_i e2 hml
    simp only [Except.error.injEq] at h
    subst h
    cases hv : st.vals.mem_limit with
    | none => rw [hv] at hml; simp at hml
    | some s =>
      rw [hv] at hml
      have he := strtol_or_err_error hml
      subst he
      cases k <;> simp_all [keyName, getValStats]
  · split at h
    · rename_i e2 hmu
      simp only [Except.error.injEq] at h
      subst h
      cases hv : st.vals.mem_usage with
      | none => rw [hv] at hmu; simp at hmu
      | some s =>
        rw [hv] at hmu
        have he := strtol_or_err_error hmu
        subst he
        cases k <;> simp_all [keyName, getValStats]
    · exact absurd h (by simp)

theorem matchKeyStats_text {s : String} {k : StatsKey}
    (h : matchKeyStats s = some k) : s = keyName k := by
  unfold matchKeyStats at h
  split_ifs at h with h1 h2 h3
  · simp only [Option.some.injEq] at h; subst h; simp [keyName, h1]
  · simp only [Option.some.injEq] at h; subst h; simp [keyName, h2]
  · simp only [Option.some.injEq] at h; subst h; simp [keyName, h3]

theorem matchKeyStats_ne_root {s : String} {k : StatsKey}
    (h : matchKeyStats s = some k) : s ≠ "container" := by
  have := matchKeyStats_text h
  subst this
  cases k <;> simp [keyName]

theorem matchKeyList_ne_root {s : String} {k : ListKey}
    (h : matchKeyList s = some k) : s ≠ "containers" := by
  unfold matchKeyList at h
  split_ifs at h <;> simp_all

theorem getValStats_setValStats (v : StatsVals) (m k : StatsKey)
    (s : String) :
    getValStats (setValStats v m s) k =
      if m = k then some s else getValStats v k := by
  cases m <;> cases k <;> simp [setValStats, getValStats]

theorem getValList_setValList (v : ListVals) (m k : ListKey) (s : String) :
    getValList (setValList v m s) k =
      if m = k then some s else getValList v k := by
  cases m <;> cases k <;> simp [setValList, getValList]

theorem statsFieldEq_refl (a : ContainerStats) (k : StatsKey) :
    statsFieldEq a a k := by cases k <;> simp [statsFieldEq]

theorem statsFieldEq_trans {a b c : ContainerStats} {k : StatsKey}
    (h1 : statsFieldEq a b k) (h2 : statsFieldEq b c k) :
    statsFieldEq a c k := by
  cases k <;> simp_all [statsFieldEq]

theorem keyName_inj {m k : StatsKey} (h : keyName m = keyName k) : m = k := by
  cases m <;> cases k <;> simp_all [keyName]

theorem statsRun_absent_key (k : StatsKey) :
    ∀ (ts : List Token) (st : StatsState),
      (∀ t ∈ ts, t.text ≠ keyName k) → getValStats st.vals k = none →
      (∀ st2, statsRun ts st = .ok st2 →
        getValStats st2.vals k = none ∧
          statsFieldEq st2.stats st.stats k) ∧
      (∀ e, statsRun ts st = .error e →
        e ≠ .invalidNumeric (keyName k)) := by
  intro ts st
  induction ts, st using statsRun.induct with
  | case1 st =>
    intro habs hnone
    constructor
    · intro st2 h
      simp only [statsRun, Except.ok.injEq] at h
      subst h
      exact ⟨hnone, statsFieldEq_refl st.stats k⟩
    · intro e h
      simp [statsRun] at h
  | case2 t rest st hk e hupd =>
    intro habs hnone
    have hred : statsRun (t :: rest) st = .error e := by
      simp only [statsRun, hk, hupd]
    constructor
    · intro st2 h
      rw [hred] at h
      exact absurd h (by simp)
    · intro e2 h
      rw [hred] at h
      simp only [Except.error.injEq] at h
      subst h
      refine updStats_err_key k ?_ hupd
      exact hnone
  | case3 t rest st hk st1 hupd ih =>
    intro habs hnone
    have hred : statsRun (t :: rest) st = statsRun rest st1 := by
      simp only [statsRun, hk, hupd]
    have hvals := updStats_ok_vals hupd
    have hnone1 : getValStats st1.vals k = none := by
      rw [hvals.1]; exact hnone
    have hfield : statsFieldEq st1.stats st.stats k :=
      @updStats_ok_field
        { st with level := if st.level < 2 then st.level + 1 else st.level }
        st1 k hnone hupd
    have ihs := ih (fun t2 ht2 => habs t2 (List.mem_cons_of_mem t ht2)) hnone1
    constructor
    · intro st2 h
      rw [hred] at h
      obtain ⟨h1, h2⟩ := ihs.1 st2 h
      exact ⟨h1, statsFieldEq_trans h2 hfield⟩
    · intro e h
      rw [hred] at h
      exact ihs.2 e h
  | case4 t rest st hk hcond =>
    intro habs hnone
    have hred : statsRun (t :: rest) st =
        .error (.rootKeyNotFound "json_parser_stats" "container") := by
      simp only [statsRun, hk, if_pos hcond]
    constructor
    · intro st2 h
      rw [hred] at h
      exact absurd h (by simp)
    · intro e h
      rw [hred] at h
      simp only [Except.error.injEq] at h
      subst h
      simp
  | case5 t st hk hncond m hm =>
    intro habs hnone
    have hred : statsRun [t] st = .error .truncated := by
      simp only [statsRun, hk, if_neg hncond, hm]
    constructor
    · intro st2 h
      rw [hred] at h
      exact absurd h (by simp)
    · intro e h
      rw [hred] at h
      simp only [Except.error.injEq] at h
      subst h
      simp
  | case6 t st hk hncond m hm v rest2 e hupd =>
    intro habs hnone
    have hred : statsRun (t :: v :: rest2) st = .error e := by
      simp only [statsRun, hk, if_neg hncond, hm, hupd]
    have hmk : m ≠ k := by
      intro hcontra
      subst hcontra
      exact habs t (List.mem_cons_self t _) (matchKeyStats_text hm)
    constructor
    · intro st2 h
      rw [hred] at h
      exact absurd h (by simp)
    · intro e2 h
      rw [hred] at h
      simp only [Except.error.injEq] at h
      subst h
      refine updStats_err_key k ?_ hupd
      show getValStats (setValStats st.vals m v.text) k = none
      rw [getValStats_setValStats, if_neg hmk]
      exact hnone
  | case7 t st hk hncond m hm v rest2 st1 hupd ih =>
    intro habs hnone
    have hred : statsRun (t :: v :: rest2) st = statsRun rest2 st1 := by
      simp only [statsRun, hk, if_neg hncond, hm, hupd]
    have hmk : m ≠ k := by
      intro hcontra
      subst hcontra
      exact habs t (List.mem_cons_self t _) (matchKeyStats_text hm)
    have hnone0 : getValStats (setValStats st.vals m v.text) k = none := by
      rw [getValStats_setValStats, if_neg hmk]
      exact hnone
    have hvals := updStats_ok_vals hupd
    have hnone1 : getValStats st1.vals k = none := by
      rw [hvals.1]; exact hnone0
    have hfield : statsFieldEq st1.stats st.stats k :=
      @updStats_ok_field
        { st with vals := setValStats st.vals m v.text }
        st1 k hnone0 hupd
    have ihs := ih (fun t2 ht2 =>
      habs t2 (List.mem_cons_of_mem t (List.mem_cons_of_mem v ht2))) hnone1
    constructor
    · intro st2 h
      rw [hred] at h
      obtain ⟨h1, h2⟩ := ihs.1 st2 h
      exact ⟨h1, statsFieldEq_trans h2 hfield⟩
    · intro e h
      rw [hred] at h
      exact ihs.2 e h
  | case8 t rest st hk hncond hm e hupd =>
    intro habs hnone
    have hred : statsRun (t :: rest) st = .error e := by
      simp only [statsRun, hk, if_neg hncond, hm, hupd]
    constructor
    · intro st2 h
      rw [hred] at h
      exact absurd h (by simp)
    · intro e2 h
      rw [hred] at h
      simp only [Except.error.injEq] at h
      subst h
      exact updStats_err_key k hnone hupd
  | case9 t rest st hk hncond hm st1 hupd ih =>
    intro habs hnone
    have hred : statsRun (t :: rest) st = statsRun rest st1 := by
      simp only [statsRun, hk, if_neg hncond, hm, hupd]
    have hvals := updStats_ok_vals hupd
    have hnone1 : getValStats st1.vals k = none := by
      rw [hvals.1]; exact hnone
    have hfield := updStats_ok_field k hnone hupd
    have ihs := ih (fun t2 ht2 => habs t2 (List.mem_cons_of_mem t ht2)) hnone1
    constructor
    · intro st2 h
      rw [hred] at h
      obtain ⟨h1, h2⟩ := ihs.1 st2 h
      exact ⟨h1, statsFieldEq_trans h2 hfield⟩
    · intro e h
      rw [hred] at h
      exact ihs.2 e h
  | case10 t rest st hlvl hobj hstr =>
    intro habs hnone
    have hred : statsRun (t :: rest) st =
        .error (.rootNotObject "json_parser_stats") := by
      cases htk : t.kind with
      | obj => exact absurd htk hobj
      | str => exact absurd htk hstr
      | arr => simp only [statsRun, htk, if_pos hlvl]
      | prim => simp only [statsRun, htk, if_pos hlvl]
      | undef => simp only [statsRun, htk, if_pos hlvl]
    constructor
    · intro st2 h
      rw [hred] at h
      exact absurd h (by simp)
    · intro e h
      rw [hred] at h
      simp only [Except.error.injEq] at h
      subst h
      simp
  | case11 t rest st hlvl e hupd hobj hstr =>
    intro habs hnone
    have hred : statsRun (t :: rest) st = .error e := by
      cases htk : t.kind with
      | obj => exact absurd htk hobj
      | str => exact absurd htk hstr
      | arr => simp only [statsRun, htk, if_neg hlvl, hupd]
      | prim => simp only [statsRun, htk, if_neg hlvl, hupd]
      | undef => simp only [statsRun, htk, if_neg hlvl, hupd]
    constructor
    · intro st2 h
      rw [hred] at h
      exact absurd h (by simp)
    · intro e2 h
      rw [hred] at h
      simp only [Except.error.injEq] at h
      subst h
      exact updStats_err_key k hnone hupd
  | case12 t rest st hlvl st1 hupd hobj hstr ih =>
    intro habs hnone
    have hred : statsRun (t :: rest) st = statsRun rest st1 := by
      cases htk : t.kind with
      | obj => exact absurd htk hobj
      | str => exact absurd htk hstr
      | arr => simp only [statsRun, htk, if_neg hlvl, hupd]
      | prim => simp only [statsRun, htk, if_neg hlvl, hupd]
      | undef => simp only [statsRun, htk, if_neg hlvl, hupd]
    have hvals := updStats_ok_vals hupd
    have hnone1 : getValStats st1.vals k = none := by
      rw [hvals.1]; exact hnone
    have hfield := updStats_ok_field k hnone hupd
    have ihs := ih (fun t2 ht2 => habs t2 (List.mem_cons_of_mem t ht2)) hnone1
    constructor
    · intro st2 h
      rw [hred] at h
      obtain ⟨h1, h2⟩ := ihs.1 st2 h
      exact ⟨h1, statsFieldEq_trans h2 hfield⟩
    · intro e h
      rw [hred] at h
      exact ihs.2 e h

theorem statsRun_lastCap (k : StatsKey) :
    ∀ (ts : List Token) (st : StatsState),
      ∀ st2, statsRun ts st = .ok st2 →
      getValStats st2.vals k =
        (match lastCapStats k ts with
         | some w => some w
         | none => getValStats st.vals k) := by
  intro ts st
  induction ts, st using statsRun.induct with
  | case1 st =>
    intro st2 h
    simp only [statsRun, Except.ok.injEq] at h
    subst h
    simp [lastCapStats]
  | case2 t rest st hk e hupd =>
    intro st2 h
    have hred : statsRun (t :: rest) st = .error e := by
      simp only [statsRun, hk, hupd]
    rw [hred] at h
    exact absurd h (by simp)
  | case3 t rest st hk st1 hupd ih =>
    intro st2 h
    have hred : statsRun (t :: rest) st = statsRun rest st1 := by
      simp only [statsRun, hk, hupd]
    rw [hred] at h
    have hvals := updStats_ok_vals hupd
    rw [ih st2 h]
    have hl : lastCapStats k (t :: rest) = lastCapStats k rest := by
      simp only [lastCapStats, hk]
    rw [hl]
    cases hcap : lastCapStats k rest with
    | some w => simp
    | none => simp [hvals.1]
  | case4 t rest st hk hcond =>
    intro st2 h
    have hred : statsRun (t :: rest) st =
        .error (.rootKeyNotFound "json_parser_stats" "container") := by
      simp only [statsRun, hk, if_pos hcond]
    rw [hred] at h
    exact absurd h (by simp)
  | case5 t st hk hncond m hm =>
    intro st2 h
    have hred : statsRun [t] st = .error .truncated := by
      simp only [statsRun, hk, if_neg hncond, hm]
    rw [hred] at h
    exact absurd h (by simp)
  | case6 t st hk hncond m hm v rest2 e hupd =>
    intro st2 h
    have hred : statsRun (t :: v :: rest2) st = .error e := by
      simp only [statsRun, hk, if_neg hncond, hm, hupd]
    rw [hred] at h
    exact absurd h (by simp)
  | case7 t st hk hncond m hm v rest2 st1 hupd ih =>
    intro st2 h
    have hred : statsRun (t :: v :: rest2) st = statsRun rest2 st1 := by
      simp only [statsRun, hk, if_neg hncond, hm, hupd]
    rw [hred] at h
    have hvals := updStats_ok_vals hupd
    rw [ih st2 h]
    have hl : lastCapStats k (t :: v :: rest2) =
        (match lastCapStats k rest2 with
         | some w => some w
         | none => if m = k then some v.text else none) := by
      simp only [lastCapStats, hk, hm]
    rw [hl]
    cases hcap : lastCapStats k rest2 with
    | some w => simp
    | none =>
      by_cases hmk : m = k
      · subst hmk
        simp [hvals.1, getValStats_setValStats]
      · simp [hvals.1, getValStats_setValStats, hmk]
  | case8 t rest st hk hncond hm e hupd =>
    intro st2 h
    have hred : statsRun (t :: rest) st = .error e := by
      simp only [statsRun, hk, if_neg hncond, hm, hupd]
    rw [hred] at h
    exact absurd h (by simp)
  | case9 t rest st hk hncond hm st1 hupd ih =>
    intro st2 h
    have hred : statsRun (t :: rest) st = statsRun rest st1 := by
      simp only [statsRun, hk, if_neg hncond, hm, hupd]
    rw [hred] at h
    have hvals := updStats_ok_vals hupd
    rw [ih st2 h]
    have hl : lastCapStats k (t :: rest) = lastCapStats k rest := by
      simp only [lastCapStats, hk, hm]
    rw [hl]
    cases hcap : lastCapStats k rest with
    | some w => simp
    | none => simp [hvals.1]
  | case10 t rest st hlvl hobj hstr =>
    intro st2 h
    have hred : statsRun (t :: rest) st =
        .error (.rootNotObject "json_parser_stats") := by
      cases htk : t.kind with
      | obj => exact absurd htk hobj
      | str => exact absurd htk hstr
      | arr => simp only [statsRun, htk, if_pos hlvl]
      | prim => simp only [statsRun, htk, if_pos hlvl]
      | undef => simp only [statsRun, htk, if_pos hlvl]
    rw [hred] at h
    exact absurd h (by simp)
  | case11 t rest st hlvl e hupd hobj hstr =>
    intro st2 h
    have hred : statsRun (t :: rest) st = .error e := by
      cases htk : t.kind with
      | obj => exact absurd htk hobj
      | str => exact absurd htk hstr
      | arr => simp only [statsRun, htk, if_neg hlvl, hupd]
      | prim => simp only [statsRun, htk, if_neg hlvl, hupd]
      | undef => simp only [statsRun, htk, if_neg hlvl, hupd]
    rw [hred] at h
    exact absurd h (by simp)
  | case12 t rest st hlvl st1 hupd hobj hstr ih =>
    intro st2 h
    have hred : statsRun (t :: rest) st = statsRun rest st1 := by
      cases htk : t.kind with
      | obj => exact absurd htk hobj
      | str => exact absurd htk hstr
      | arr => simp only [statsRun, htk, if_neg hlvl, hupd]
      | prim => simp only [statsRun, htk, if_neg hlvl, hupd]
      | undef => simp only [statsRun, htk, if_neg hlvl, hupd]
    rw [hred] at h
    have hvals := updStats_ok_vals hupd
    rw [ih st2 h]
    have hl : lastCapStats k (t :: rest) = lastCapStats k rest := by
      cases htk : t.kind with
      | obj => exact absurd htk hobj
      | str => exact absurd htk hstr
      | arr => simp only [lastCapStats, htk]
      | prim => simp only [lastCapStats, htk]
      | undef => simp only [lastCapStats, htk]
    rw [hl]
    cases hcap : lastCapStats k rest with
    | some w => simp
    | none => simp [hvals.1]

theorem statsLoop_spec (fetchStats : String → List Token) :
    ∀ (keys : List String) (tot : Nat) (pd : String) (ids : List String),
      statsLoop fetchStats keys = (.ok (tot, pd), ids) →
      ids = keys ∧
      tot = (keys.map (usageOf fetchStats)).sum % u64Mod ∧
      pd = (keys.map (perfLineOf fetchStats)).foldr
        (fun a b => a ++ b) "" := by
  intro keys
  induction keys with
  | nil =>
    intro tot pd ids h
    simp only [statsLoop, Prod.mk.injEq, Except.ok.injEq] at h
    obtain ⟨⟨htot, hpd⟩, hids⟩ := h
    subst htot; subst hpd; subst hids
    simp
  | cons k rest ih =>
    intro tot pd ids h
    simp only [statsLoop] at h
    cases hp : json_parser_stats (fetchStats k) with
    | error e => simp only [hp] at h; simp at h
    | ok stats =>
      simp only [hp] at h
      cases hr : statsLoop fetchStats rest with
      | mk res ids2 =>
        simp only [hr] at h
        cases res with
        | error e => simp at h
        | ok p =>
          obtain ⟨tot2, pd2⟩ := p
          simp only [Prod.mk.injEq, Except.ok.injEq] at h
          obtain ⟨⟨htot, hpd⟩, hids⟩ := h
          subst htot; subst hpd; subst hids
          obtain ⟨hids2, htot2, hpd2⟩ := ih tot2 pd2 ids2 hr
          subst hids2
          refine ⟨rfl, ?_, ?_⟩
          · simp only [List.map_cons, List.sum_cons, usageOf, hp, htot2,
              u64Mod]
            omega
          · simp only [List.map_cons, List.foldr_cons, perfLineOf, hp,
              hpd2, perfLine]

/-- C4: for every processed item the aggregator appends exactly the line
name=(mem_usage/1000)kB;;;0;(mem_limit/1000) followed by a space, with both
divisions truncating; in particular the item named srv-redis-1 with
mem_usage 8310784 and mem_limit 8232525824 produces the line
srv-redis-1=8310kB;;;0;8232525 with a trailing space and an untruncated
8310. -/
theorem claim_C4_perfdata_format :
    (∀ (listToks : List Token) (fetchStats : String → List Token)
       (shift : UnitShift) (image : Option String)
       (fmtMB fmtGB : Nat → String) (r : PodmanResult) (ids : List String),
      podman_stats listToks fetchStats shift image fmtMB fmtGB =
        (.ok r, ids) →
      r.perfdata = (ids.map (perfLineOf fetchStats)).foldr
        (fun a b => a ++ b) "") ∧
    perfLine { name := some "srv-redis-1", mem_limit := 8232525824,
               mem_usage := 8310784 } = "srv-redis-1=8310kB;;;0;8232525 " := by
  constructor
  · intro listToks fetchStats shift image fmtMB fmtGB r ids h
    unfold podman_stats at h
    cases hl : json_parser_list listToks image with
    | error e => simp only [hl] at h; simp at h
    | ok ht =>
      simp only [hl] at h
      cases hs : statsLoop fetchStats
          ((Counter.keys ht).take
            (counter_get_unique_elements ht % u32Mod)) with
      | mk res ids2 =>
        simp only [hs] at h
        cases res with
        | error e => simp at h
        | ok p =>
          obtain ⟨tot, pd⟩ := p
          simp only [Prod.mk.injEq, Except.ok.injEq] at h
          obtain ⟨hr, hids⟩ := h
          subst hids
          obtain ⟨hids2, htot2, hpd2⟩ :=
            statsLoop_spec fetchStats
              ((Counter.keys ht).take
                (counter_get_unique_elements ht % u32Mod)) tot pd ids2 hs
          subst hids2
          rw [← hr]
          exact hpd2
  · simp [perfLine, natToDec, natToDecAux, digitChar]

/-- Witness for C4 at the concrete one-container aggregation run built
from the documents in the source comments: the perfdata stream equals the
formatted line of the single item. -/
theorem claim_C4_perfdata_format_witness :
    podman_stats listDocToks (fun _ => statsDocToks) .b none
        (fun _ => "") (fun _ => "") =
      (.ok { tot_memory := 8310784,
             perfdata := "srv-redis-1=8310kB;;;0;8232525 ",
             status := "8310784B of memory used by 1 running containers" },
       ["3b395e06"]) ∧
    ({ tot_memory := 8310784,
       perfdata := "srv-redis-1=8310kB;;;0;8232525 ",
       status := "8310784B of memory used by 1 running containers" } :
        PodmanResult).perfdata =
      ((["3b395e06"] : List String).map
        (perfLineOf (fun _ => statsDocToks))).foldr
        (fun a b => a ++ b) "" := by
  have hrun : podman_stats listDocToks (fun _ => statsDocToks) .b none
      (fun _ => "") (fun _ => "") =
      (.ok { tot_memory := 8310784,
             perfdata := "srv-redis-1=8310kB;;;0;8232525 ",
             status := "8310784B of memory used by 1 running containers" },
       ["3b395e06"]) := by
    simp [podman_stats, json_parser_list, listRun, applyFlush, flushFull,
          flushInsert, podman_array_is_full, matchKeyList, setValList,
          podman_shortid, shortIdLen, counter_put, counter_create,
          Counter.keys, counter_get_unique_elements, initListState,
          emptyListVals, listDocToks, statsLoop, json_parser_stats,
          statsRun, updStats, strtol_or_err, parseDec, parseDecCore,
          matchKeyStats, setValStats, initStatsState, emptyStatsVals,
          statsDocToks, perfLine, natToDec, natToDecAux, digitChar,
          u64Mod, u32Mod, List.take, strTok, primTok, objTok, arrTok]
  exact ⟨hrun, claim_C4_perfdata_format.1 listDocToks
    (fun _ => statsDocToks) .b none (fun _ => "") (fun _ => "")
    { tot_memory := 8310784,
      perfdata := "srv-redis-1=8310kB;;;0;8232525 ",
      status := "8310784B of memory used by 1 running containers" }
    ["3b395e06"] hrun⟩

/-- C5: on a successful aggregation run the total memory is the sum of
mem_usage over the processed deduplicated items folded in the unsigned
long long accumulator, hence modulo 2 to the 64, and equal to the plain
sum whenever that sum is in range; the items are processed in the dedup
counter's first-insertion key order (all of them whenever the unique count
fits an unsigned int); and the status string is the unit-shifted total
followed by of memory used by N running containers where N is the
counter's unique key count as the %u rendition prints it, the count itself
whenever it fits an unsigned int. -/
theorem claim_C5_total_and_status :
    ∀ (listToks : List Token) (fetchStats : String → List Token)
      (shift : UnitShift) (image : Option String)
      (fmtMB fmtGB : Nat → String) (r : PodmanResult) (ids : List String),
      podman_stats listToks fetchStats shift image fmtMB fmtGB =
        (.ok r, ids) →
      ∃ ht, json_parser_list listToks image = .ok ht ∧
        ids = (Counter.keys ht).take
          (counter_get_unique_elements ht % u32Mod) ∧
        (counter_get_unique_elements ht < u32Mod →
          ids = Counter.keys ht) ∧
        r.tot_memory = (ids.map (usageOf fetchStats)).sum % u64Mod ∧
        ((ids.map (usageOf fetchStats)).sum < u64Mod →
          r.tot_memory = (ids.map (usageOf fetchStats)).sum) ∧
        r.status =
          (match shift with
           | .b => natToDec r.tot_memory ++ "B"
           | .k => natToDec (r.tot_memory / 1000) ++ "kB"
           | .m => fmtMB r.tot_memory ++ "MB"
           | .g => fmtGB r.tot_memory ++ "GB") ++
          " of memory used by " ++
          natToDec (counter_get_unique_elements ht % u32Mod) ++
          " running containers" := by
  intro listToks fetchStats shift image fmtMB fmtGB r ids h
  unfold podman_stats at h
  cases hl : json_parser_list listToks image with
  | error e => simp only [hl] at h; simp at h
  | ok ht =>
    simp only [hl] at h
    cases hs : statsLoop fetchStats
        ((Counter.keys ht).take
          (counter_get_unique_elements ht % u32Mod)) with
    | mk res ids2 =>
      simp only [hs] at h
      cases res with
      | error e => simp at h
      | ok p =>
        obtain ⟨tot, pd⟩ := p
        simp only [Prod.mk.injEq, Except.ok.injEq] at h
        obtain ⟨hr, hids⟩ := h
        subst hids
        obtain ⟨hids2, htot2, hpd2⟩ :=
          statsLoop_spec fetchStats
            ((Counter.keys ht).take
              (counter_get_unique_elements ht % u32Mod)) tot pd ids2 hs
        subst hids2
        have hlen : (Counter.keys ht).length =
            counter_get_unique_elements ht := by
          simp [Counter.keys, counter_get_unique_elements]
        refine ⟨ht, rfl, rfl, ?_, ?_, ?_, ?_⟩
        · intro hlt
          rw [Nat.mod_eq_of_lt hlt, ← hlen, List.take_length]
        · rw [← hr]
          exact htot2
        · intro hlt
          rw [← hr, htot2, Nat.mod_eq_of_lt hlt]
        · rw [← hr]

/-- Witness for C5 at the concrete one-container aggregation run: the
total is the single item's mem_usage and the status string reports one
running container with the byte-shift rendition. -/
theorem claim_C5_total_and_status_witness :
    podman_stats listDocToks (fun _ => statsDocToks) .b none
        (fun _ => "") (fun _ => "") =
      (.ok { tot_memory := 8310784,
             perfdata := "srv-redis-1=8310kB;;;0;8232525 ",
             status := "8310784B of memory used by 1 running containers" },
       ["3b395e06"]) ∧
    ∃ ht, json_parser_list listDocToks none = .ok ht ∧
      ["3b395e06"] = (Counter.keys ht).take
        (counter_get_unique_elements ht % u32Mod) ∧
      (counter_get_unique_elements ht < u32Mod →
        ["3b395e06"] = Counter.keys ht) ∧
      ({ tot_memory := 8310784,
         perfdata := "srv-redis-1=8310kB;;;0;8232525 ",
         status := "8310784B of memory used by 1 running containers" } :
          PodmanResult).tot_memory =
        ((["3b395e06"] : List String).map
          (usageOf (fun _ => statsDocToks))).sum % u64Mod ∧
      (((["3b395e06"] : List String).map
          (usageOf (fun _ => statsDocToks))).sum < u64Mod →
        ({ tot_memory := 8310784,
           perfdata := "srv-redis-1=8310kB;;;0;8232525 ",
           status := "8310784B of memory used by 1 running containers" } :
            PodmanResult).tot_memory =
          ((["3b395e06"] : List String).map
            (usageOf (fun _ => statsDocToks))).sum) ∧
      ({ tot_memory := 8310784,
         perfdata := "srv-redis-1=8310kB;;;0;8232525 ",
         status := "8310784B of memory used by 1 running containers" } :
          PodmanResult).status =
        natToDec 8310784 ++ "B" ++ " of memory used by " ++
        natToDec (counter_get_unique_elements ht % u32Mod) ++
        " running containers" := by
  have hrun : podman_stats listDocToks (fun _ => statsDocToks) .b none
      (fun _ => "") (fun _ => "") =
      (.ok { tot_memory := 8310784,
             perfdata := "srv-redis-1=8310kB;;;0;8232525 ",
             status := "8310784B of memory used by 1 running containers" },
       ["3b395e06"]) := by
    simp [podman_stats, json_parser_list, listRun, applyFlush, flushFull,
          flushInsert, podman_array_is_full, matchKeyList, setValList,
          podman_shortid, shortIdLen, counter_put, counter_create,
          Counter.keys, counter_get_unique_elements, initListState,
          emptyListVals, listDocToks, statsLoop, json_parser_stats,
          statsRun, updStats, strtol_or_err, parseDec, parseDecCore,
          matchKeyStats, setValStats, initStatsState, emptyStatsVals,
          statsDocToks, perfLine, natToDec, natToDecAux, digitChar,
          u64Mod, u32Mod, List.take, strTok, primTok, objTok, arrTok]
  exact ⟨hrun, claim_C5_total_and_status listDocToks
    (fun _ => statsDocToks) .b none (fun _ => "") (fun _ => "")
    { tot_memory := 8310784,
      perfdata := "srv-redis-1=8310kB;;;0;8232525 ",
      status := "8310784B of memory used by 1 running containers" }
    ["3b395e06"] hrun⟩

/-- C2: feeding the exact single-item stats document (root key container,
with mem_limit 8232525824, mem_usage 8310784 and name srv-redis-1) through
single-item extraction yields the record with name srv-redis-1, mem_usage
8310784 and mem_limit 8232525824, with no error raised. -/
theorem claim_C2_stats_roundtrip :
    json_parser_stats statsDocToks =
      .ok { name := some "srv-redis-1", mem_limit := 8232525824,
            mem_usage := 8310784 } := by
  simp [json_parser_stats, statsRun, updStats, strtol_or_err, parseDec,
        parseDecCore, matchKeyStats, setValStats, initStatsState,
        emptyStatsVals, statsDocToks, strTok, primTok, objTok]

/-- C1: the source never decrements the level counter (the FIXME at source
line 257), so in both extraction configurations a second sibling top-level
object is scanned at a level above 1 and its root key is never checked:
both runs accept a second sibling object carrying a bogus root key, which
a parser with the claimed depth decrement must reject.  This theorem
records the defective code behavior at that failing input. -/
theorem claim_C1_depth_not_decremented :
    json_parser_stats siblingStatsToks =
      .ok { name := some "A", mem_limit := 0, mem_usage := 0 } ∧
    json_parser_list siblingListToks none = .ok ⟨[("3b395e06", 1)]⟩ := by
  constructor
  · simp [json_parser_stats, statsRun, updStats, strtol_or_err, parseDec,
          parseDecCore, matchKeyStats, setValStats, initStatsState,
          emptyStatsVals, siblingStatsToks, strTok, primTok, objTok]
  · simp [json_parser_list, listRun, applyFlush, flushFull, flushInsert,
          podman_array_is_full, matchKeyList, setValList, podman_shortid,
          shortIdLen, counter_put, counter_create, initListState,
          emptyListVals, siblingListToks, listDocToks, strTok, primTok,
          objTok, arrTok]

/-- C3: at a flush where all three target slots are full the shortened id
is inserted into the dedup counter with count 1 exactly when
containerrunning is the string true and either no image filter is supplied
or the filter equals the image exactly; a non-running container is never
inserted regardless of filter; and the slots are reset to empty in every
flush outcome. -/
theorem claim_C3_flush_insertion :
    ∀ (filter : Option String) (cr idv img : String) (ht : Counter),
      (shortIdLen ≤ idv.length →
        flushFull filter ⟨some cr, some idv, some img⟩ ht =
          .ok ((if cr = "true" ∧ (filter = none ∨ filter = some img)
                then counter_put ht ⟨idv.data.take shortIdLen⟩ 1
                else ht),
               emptyListVals)) ∧
      (cr ≠ "true" →
        flushFull filter ⟨some cr, some idv, some img⟩ ht =
          .ok (ht, emptyListVals)) := by
  intro filter cr idv img ht
  constructor
  · intro hlen
    unfold flushFull flushInsert podman_shortid podman_array_is_full
    by_cases hcr : cr = "true"
    · cases filter with
      | none => simp [hcr, hlen]
      | some f =>
        by_cases himg : img = f
        · subst himg
          simp [hcr, hlen]
        · simp [hcr, himg, Ne.symm himg]
    · simp [hcr]
  · intro hcr
    unfold flushFull podman_array_is_full
    simp [hcr]

/-- Witness for C3 at a concrete running container with an id of exactly
the shortening length and no filter: the id is inserted with count 1 and
the slots are reset. -/
theorem claim_C3_flush_insertion_witness :
    shortIdLen ≤ ("abcd1234" : String).length ∧
    flushFull none ⟨some "true", some "abcd1234", some "img"⟩
        counter_create =
      .ok ((if ("true" : String) = "true" ∧
              ((none : Option String) = none ∨
                (none : Option String) = some "img")
            then counter_put counter_create
              ⟨("abcd1234" : String).data.take shortIdLen⟩ 1
            else counter_create),
           emptyListVals) :=
  ⟨by decide,
   (claim_C3_flush_insertion none "true" "abcd1234" "img"
      counter_create).1 (by decide)⟩

/-- C6 counterexample: the empty-root-object list document does not
contain the root key containers, yet the aggregation call succeeds with an
empty result and zero fetches instead of failing with the root-key
SchemaViolation the claim requires for every such document. -/
theorem claim_C6_counterexample :
    podman_stats [objTok] (fun _ => []) .b none (fun _ => "")
        (fun _ => "") =
      (.ok { tot_memory := 0, perfdata := "",
             status := "0B of memory used by 0 running containers" },
       []) := by
  simp [podman_stats, json_parser_list, listRun, applyFlush, flushFull,
        podman_array_is_full, counter_create, initListState, emptyListVals,
        Counter.keys, counter_get_unique_elements, statsLoop, natToDec,
        natToDecAux, digitChar, objTok]

/-- C6 amended: for every list document whose root object is non-empty,
meaning its token stream opens with an object token followed by a string
key token, and whose first key is not containers (as is the case for every
such document that does not contain the root key at all), the aggregation
call fails with the root-key SchemaViolation, no partial result is
produced and zero per-item stats fetches are performed; the empty root
object, which also lacks the root key, instead succeeds with an empty
result. -/
theorem claim_C6_missing_root_key :
    ∀ (k : String) (rest : List Token) (fetchStats : String → List Token)
      (shift : UnitShift) (image : Option String)
      (fmtMB fmtGB : Nat → String),
      k ≠ "containers" →
      podman_stats (objTok :: strTok k :: rest) fetchStats shift image
          fmtMB fmtGB =
        (.error (.rootKeyNotFound "json_parser_list" "containers"), []) := by
  intro k rest fetchStats shift image fmtMB fmtGB hk
  simp [podman_stats, json_parser_list, listRun, applyFlush, flushFull,
        podman_array_is_full, counter_create, initListState, emptyListVals,
        strTok, objTok, hk]

/-- Witness for the amended C6 at the concrete document with the single
root key other: aggregation fails with the root-key error and fetches
nothing. -/
theorem claim_C6_missing_root_key_witness :
    ("other" : String) ≠ "containers" ∧
    podman_stats [objTok, strTok "other"] (fun _ => []) .b none
        (fun _ => "") (fun _ => "") =
      (.error (.rootKeyNotFound "json_parser_list" "containers"), []) :=
  ⟨by decide,
   claim_C6_missing_root_key "other" [] (fun _ => []) .b none
     (fun _ => "") (fun _ => "") (by decide)⟩

/-- C7: when the key mem_usage or mem_limit does not appear in the stats
document, the corresponding numeric field of the returned record is 0, and
the absence is not an error: no InvalidNumeric error for the absent key
can be raised. -/
theorem claim_C7_absent_numeric_defaults :
    ∀ (ts : List Token),
      ((∀ t ∈ ts, t.text ≠ "mem_usage") →
        (∀ r, json_parser_stats ts = .ok r → r.mem_usage = 0) ∧
        (∀ e, json_parser_stats ts = .error e →
          e ≠ .invalidNumeric "mem_usage")) ∧
      ((∀ t ∈ ts, t.text ≠ "mem_limit") →
        (∀ r, json_parser_stats ts = .ok r → r.mem_limit = 0) ∧
        (∀ e, json_parser_stats ts = .error e →
          e ≠ .invalidNumeric "mem_limit")) := by
  intro ts
  constructor
  · intro habs
    have hmain := statsRun_absent_key .mem_usage ts initStatsState
      (by simpa [keyName] using habs)
      (by simp [initStatsState, emptyStatsVals, getValStats])
    constructor
    · intro r h
      unfold json_parser_stats at h
      cases hrun : statsRun ts initStatsState with
      | error e => simp only [hrun] at h; simp at h
      | ok st2 =>
        simp only [hrun, Except.ok.injEq] at h
        subst h
        have hf := (hmain.1 st2 hrun).2
        simpa [statsFieldEq, initStatsState] using hf
    · intro e h
      unfold json_parser_stats at h
      cases hrun : statsRun ts initStatsState with
      | error e2 =>
        simp only [hrun, Except.error.injEq] at h
        subst h
        simpa [keyName] using hmain.2 e2 hrun
      | ok st2 => simp only [hrun] at h; simp at h
  · intro habs
    have hmain := statsRun_absent_key .mem_limit ts initStatsState
      (by simpa [keyName] using habs)
      (by simp [initStatsState, emptyStatsVals, getValStats])
    constructor
    · intro r h
      unfold json_parser_stats at h
      cases hrun : statsRun ts initStatsState with
      | error e => simp only [hrun] at h; simp at h
      | ok st2 =>
        simp only [hrun, Except.ok.injEq] at h
        subst h
        have hf := (hmain.1 st2 hrun).2
        simpa [statsFieldEq, initStatsState] using hf
    · intro e h
      unfold json_parser_stats at h
      cases hrun : statsRun ts initStatsState with
      | error e2 =>
        simp only [hrun, Except.error.injEq] at h
        subst h
        simpa [keyName] using hmain.2 e2 hrun
      | ok st2 => simp only [hrun] at h; simp at h

/-- Witness for C7 at a concrete stats document that never mentions
mem_usage: the hypothesis holds by computation and the returned record has
mem_usage 0. -/
theorem claim_C7_absent_numeric_defaults_witness :
    (∀ t ∈ noNumericToks, t.text ≠ "mem_usage") ∧
    ((∀ r, json_parser_stats noNumericToks = .ok r → r.mem_usage = 0) ∧
     (∀ e, json_parser_stats noNumericToks = .error e →
        e ≠ .invalidNumeric "mem_usage")) :=
  ⟨by decide, (claim_C7_absent_numeric_defaults noNumericToks).1
    (by decide)⟩

/-- C8 counterexample: in the single-item window the target key name
occurs twice, first followed by A and then by B; the extraction stores B,
the value following the last occurrence, refuting the claim that the value
following the first occurrence wins. -/
theorem claim_C8_counterexample :
    json_parser_stats dupNameToks =
      .ok { name := some "B", mem_limit := 0, mem_usage := 0 } ∧
    some "B" ≠ some "A" := by
  constructor
  · simp [json_parser_stats, statsRun, updStats, strtol_or_err, parseDec,
          parseDecCore, matchKeyStats, setValStats, initStatsState,
          emptyStatsVals, dupNameToks, strTok, objTok]
  · decide

/-- C8 amended: when a target key occurs more than once within a single
item-scan window, the value stored in that key's output slot is the value
immediately following the last occurrence: the last match for a given key
wins within the window.  For the single-item configuration the window is
the whole document and every final slot equals its last captured value;
for the multi-item configuration a repeated key match that does not fill
the slot set overwrites the slot in place and the scan continues. -/
theorem claim_C8_last_match_wins :
    (∀ (ts : List Token) (st2 : StatsState) (k : StatsKey),
      statsRun ts initStatsState = .ok st2 →
      getValStats st2.vals k =
        (match lastCapStats k ts with
         | some w => some w
         | none => none)) ∧
    (∀ (image : Option String) (st : ListState) (ktext : String)
       (v : Token) (rest : List Token) (m : ListKey),
      matchKeyList ktext = some m → st.level ≠ 1 →
      podman_array_is_full (setValList st.vals m v.text) = false →
      listRun image (⟨.str, ktext⟩ :: v :: rest) st =
        listRun image rest
          { st with vals := setValList st.vals m v.text }) := by
  constructor
  · intro ts st2 k h
    rw [statsRun_lastCap k ts initStatsState st2 h]
    cases lastCapStats k ts with
    | some w => rfl
    | none => cases k <;> simp [initStatsState, emptyStatsVals, getValStats]
  · intro image st ktext v rest m hm hlvl hfull
    have hcond : ¬(st.level = 1 ∧
        (Token.mk .str ktext).text ≠ "containers") := by
      intro hc
      exact hlvl hc.1
    simp only [listRun, if_neg hcond, hm, applyFlush, flushFull, hfull]
    simp

/-- Witness for the amended C8: the duplicated-name document ends with B
in the name slot (equal to its last capture), and a concrete repeated id
key in list mode overwrites the slot in place. -/
theorem claim_C8_last_match_wins_witness :
    statsRun dupNameToks initStatsState =
      .ok { level := 2, vals := ⟨none, none, some "B"⟩,
            stats := { name := some "B", mem_limit := 0,
                       mem_usage := 0 } } ∧
    getValStats
        (StatsState.mk 2 ⟨none, none, some "B"⟩
          { name := some "B", mem_limit := 0, mem_usage := 0 }).vals
        StatsKey.name =
      (match lastCapStats .name dupNameToks with
       | some w => some w
       | none => none) ∧
    listRun none [⟨.str, "id"⟩, strTok "XY", primTok "0"]
        { level := 2, vals := ⟨none, some "OLD", none⟩,
          ht := counter_create } =
      listRun none [primTok "0"]
        { level := 2,
          vals := setValList ⟨none, some "OLD", none⟩ ListKey.id "XY",
          ht := counter_create } := by
  have hrun : statsRun dupNameToks initStatsState =
      .ok { level := 2, vals := ⟨none, none, some "B"⟩,
            stats := { name := some "B", mem_limit := 0,
                       mem_usage := 0 } } := by
    simp [statsRun, updStats, strtol_or_err, parseDec, parseDecCore,
          matchKeyStats, setValStats, initStatsState, emptyStatsVals,
          dupNameToks, strTok, objTok]
  refine ⟨hrun, claim_C8_last_match_wins.1 dupNameToks _ StatsKey.name hrun, ?_⟩
  exact claim_C8_last_match_wins.2 none
    { level := 2, vals := ⟨none, some "OLD", none⟩, ht := counter_create }
    "id" (strTok "XY") [primTok "0"] ListKey.id (by decide) (by decide) (by decide)

/-- C9: a string token equal to a target key name consumes the
immediately following token as that key's value and the scan skips it: the
continuation never classifies the value token, so whatever its kind and
text (even text equal to a key name, or a kind the depth-0 check rejects)
the run proceeds identically with the text merely stored in the slot; and
at level 1, where the root-key check rejects the key string itself, the
run aborts before the value token is ever examined. -/
theorem claim_C9_value_token_skipped :
    (∀ (st : StatsState) (ktext : String) (v : Token) (rest : List Token)
       (m : StatsKey),
      matchKeyStats ktext = some m → st.level ≠ 1 →
      statsRun (⟨.str, ktext⟩ :: v :: rest) st =
        (match updStats
            { st with vals := setValStats st.vals m v.text } with
         | .error e => .error e
         | .ok st2 => statsRun rest st2)) ∧
    (∀ (st : StatsState) (ktext : String) (v : Token) (rest : List Token)
       (m : StatsKey),
      matchKeyStats ktext = some m → st.level = 1 →
      statsRun (⟨.str, ktext⟩ :: v :: rest) st =
        .error (.rootKeyNotFound "json_parser_stats" "container")) ∧
    (∀ (image : Option String) (st : ListState) (ktext : String)
       (v : Token) (rest : List Token) (m : ListKey),
      matchKeyList ktext = some m → st.level ≠ 1 →
      listRun image (⟨.str, ktext⟩ :: v :: rest) st =
        (match applyFlush image
            { st with vals := setValList st.vals m v.text } with
         | .error e => .error e
         | .ok st2 => listRun image rest st2)) ∧
    (∀ (image : Option String) (st : ListState) (ktext : String)
       (v : Token) (rest : List Token) (m : ListKey),
      matchKeyList ktext = some m → st.level = 1 →
      listRun image (⟨.str, ktext⟩ :: v :: rest) st =
        .error (.rootKeyNotFound "json_parser_list" "containers")) := by
  refine ⟨?_, ?_, ?_, ?_⟩
  · intro st ktext v rest m hm hlvl
    have hcond : ¬(st.level = 1 ∧
        (Token.mk .str ktext).text ≠ "container") := by
      intro hc
      exact hlvl hc.1
    simp only [statsRun, if_neg hcond, hm]
  · intro st ktext v rest m hm hlvl
    have hne := matchKeyStats_ne_root hm
    have hcond : st.level = 1 ∧
        (Token.mk .str ktext).text ≠ "container" := ⟨hlvl, hne⟩
    simp only [statsRun, if_pos hcond]
  · intro image st ktext v rest m hm hlvl
    have hcond : ¬(st.level = 1 ∧
        (Token.mk .str ktext).text ≠ "containers") := by
      intro hc
      exact hlvl hc.1
    simp only [listRun, if_neg hcond, hm]
  · intro image st ktext v rest m hm hlvl
    have hne := matchKeyList_ne_root hm
    have hcond : st.level = 1 ∧
        (Token.mk .str ktext).text ≠ "containers" := ⟨hlvl, hne⟩
    simp only [listRun, if_pos hcond]

/-- Witness for C9 at concrete inputs: a mem_usage key at level 2 whose
value token carries the text name (a target key name) is consumed as data
with no spurious capture or error, and a mem_usage key at level 1 aborts
with the root-key error whatever the value token holds. -/
theorem claim_C9_value_token_skipped_witness :
    matchKeyStats "mem_usage" = some .mem_usage ∧
    statsRun [⟨.str, "mem_usage"⟩, strTok "name"]
        { level := 2, vals := emptyStatsVals,
          stats := { name := none, mem_limit := 0, mem_usage := 0 } } =
      (match updStats
          { level := 2,
            vals := setValStats emptyStatsVals StatsKey.mem_usage "name",
            stats := { name := none, mem_limit := 0,
                       mem_usage := 0 } } with
       | .error e => .error e
       | .ok st2 => statsRun [] st2) ∧
    statsRun [⟨.str, "mem_usage"⟩, strTok "x"]
        { level := 1, vals := emptyStatsVals,
          stats := { name := none, mem_limit := 0, mem_usage := 0 } } =
      .error (.rootKeyNotFound "json_parser_stats" "container") := by
  refine ⟨by decide, ?_, ?_⟩
  · exact claim_C9_value_token_skipped.1
      { level := 2, vals := emptyStatsVals,
        stats := { name := none, mem_limit := 0, mem_usage := 0 } }
      "mem_usage" (strTok "name") [] StatsKey.mem_usage (by decide) (by decide)
  · exact claim_C9_value_token_skipped.2.1
      { level := 1, vals := emptyStatsVals,
        stats := { name := none, mem_limit := 0, mem_usage := 0 } }
      "mem_usage" (strTok "x") [] StatsKey.mem_usage (by decide) rfl

/-- C10: a document whose root element is a JSON array, meaning the first
token of the stream is an array token at depth 0, is rejected by both
extraction configurations with the fatal root-element-must-be-an-object
error, exactly as a primitive first token is. -/
theorem claim_C10_array_root_rejected :
    ∀ (s : String) (rest : List Token) (image : Option String),
      json_parser_stats (⟨.arr, s⟩ :: rest) =
        .error (.rootNotObject "json_parser_stats") ∧
      json_parser_list (⟨.arr, s⟩ :: rest) image =
        .error (.rootNotObject "json_parser_list") ∧
      json_parser_stats (⟨.prim, s⟩ :: rest) =
        .error (.rootNotObject "json_parser_stats") ∧
      json_parser_list (⟨.prim, s⟩ :: rest) image =
        .error (.rootNotObject "json_parser_list") := by
  intro s rest image
  refine ⟨?_, ?_, ?_, ?_⟩ <;>
    simp [json_parser_stats, statsRun, json_parser_list, listRun,
          initStatsState, initListState]

end PodmanStats
